/-
Verification of the SQL "river" formatter (sql-rise.py).

The formatter is embedded shallowly: Python strings become `List Char`
(`PyStr`), Python integers become `Int` (so that `' ' * n` on a negative
`n` yields the empty string, as in Python, via `Int.toNat`), and every
method of the `RiverFormatter` class becomes an executable Lean function
of the same name.  The regular expressions used by the source are tame
(keyword sequences with `\b` boundaries and `\s+` separators, comment
markers, and a handful of lazy-dot patterns whose backtracking collapses
to a deterministic scan); each one is embedded by a dedicated matcher
that reproduces the Python `re` semantics on the inputs the program
handles (ASCII text, where `str.upper`, `str.isspace` and `\w` agree
with the ASCII tables used here).
-/
import Mathlib

namespace SqlRise

/-- Python strings, modelled as lists of characters. -/
abbrev PyStr := List Char

/-- Convenience conversion from Lean string literals. -/
def toPy (s : String) : PyStr := s.toList

/-- Python `str.isspace` on the ASCII whitespace characters
(`' '`, `\t`, `\n`, `\r`, `\x0b`, `\x0c`). -/
def pyIsSpace (c : Char) : Bool :=
  c = ' ' || c = '\t' || c = '\n' || c = '\r' ||
  c = Char.ofNat 11 || c = Char.ofNat 12

/-- Python `str.upper`, ASCII case mapping. -/
def pyUpper (s : PyStr) : PyStr := s.map Char.toUpper

/-- Python `str.lstrip()`. -/
def pyLStrip (s : PyStr) : PyStr := s.dropWhile pyIsSpace

/-- Python `str.rstrip()`. -/
def pyRStrip (s : PyStr) : PyStr := (s.reverse.dropWhile pyIsSpace).reverse

/-- Python `str.strip()`. -/
def pyStrip (s : PyStr) : PyStr := pyRStrip (pyLStrip s)

/-- Python `s.startswith(p)`. -/
def pyStartsWith (s p : PyStr) : Bool := p.isPrefixOf s

/-- Python `s.endswith(p)`. -/
def pyEndsWith (s p : PyStr) : Bool := p.isSuffixOf s

/-- Python `sub in s` (substring containment). -/
def pyContains : PyStr → PyStr → Bool
  | s, sub =>
    if pyStartsWith s sub then true
    else match s with
      | [] => false
      | _ :: t => pyContains t sub

/-- Python `s.split(sep)` for a one-character separator
(keeps empty fields, like `"a,,b".split(',') = ['a','','b']`). -/
def pySplitOn (sep : Char) (s : PyStr) : List PyStr :=
  match s with
  | [] => [[]]
  | c :: rest =>
    let r := pySplitOn sep rest
    if c = sep then [] :: r
    else
      match r with
      | [] => [[c]]
      | h :: t => (c :: h) :: t

/-- Splitting at every character satisfying `p`, keeping empty fields. -/
def pySplitWhen (p : Char → Bool) (s : PyStr) : List PyStr :=
  match s with
  | [] => [[]]
  | c :: rest =>
    let r := pySplitWhen p rest
    if p c then [] :: r
    else
      match r with
      | [] => [[c]]
      | h :: t => (c :: h) :: t

/-- Python `s.split()` with no arguments: fields separated by runs of
whitespace, with no empty fields. -/
def pyWords (s : PyStr) : List PyStr :=
  (pySplitWhen pyIsSpace s).filter (fun w => !w.isEmpty)

/-- Python `sep.join(xs)`. -/
def pyJoin (sep : PyStr) (xs : List PyStr) : PyStr :=
  match xs with
  | [] => []
  | [x] => x
  | x :: y :: t => x ++ sep ++ pyJoin sep (y :: t)

/-- `' '.join(clause.split())`: the whitespace normalization used by the
clause extractor. -/
def normalizeWs (s : PyStr) : PyStr := pyJoin [' '] (pyWords s)

/-- Python `' ' * n` (empty for negative `n`). -/
def mkSpaces (n : Int) : PyStr := List.replicate n.toNat ' '

/-- `max(len(c) for c in l)` over a list of strings (0 on the empty
list; the source only evaluates it on non-empty lists). -/
def maxLen (l : List PyStr) : Nat := l.foldl (fun m c => max m c.length) 0

/-- Regex `\w` on ASCII: letters, digits and underscore. -/
def isWordChar (c : Char) : Bool := c.isAlphanum || c = '_'

/-- The dedup-append idiom `if clause not in acc: acc.append(clause)`. -/
def dedupAppend (acc : List PyStr) (x : PyStr) : List PyStr :=
  if x ∈ acc then acc else acc ++ [x]

/-! ### Matchers for the regex fragments used by the source

Each matcher recognizes one pattern shape at the start of a string and
returns the matched text (a prefix of the input).  `finditerGo` then
reproduces `re.finditer`: scan left to right, emit non-overlapping
matches, resume after each match, tracking whether the previous
character was a word character for `\b` boundaries. -/

/-- A trailing `\b`: the next character (if any) is not a word character. -/
def endBoundary (s : PyStr) : Bool :=
  match s with
  | [] => true
  | c :: _ => !isWordChar c

/-- Case-insensitive literal keyword at the start (no boundary checks);
`kw` is the canonical uppercase spelling.  Returns the matched slice in
its original case. -/
def matchKw (kw : PyStr) (s : PyStr) : Option PyStr :=
  let sl := s.take kw.length
  if sl.length = kw.length && pyUpper sl == kw then some sl else none

/-- `\bW1\s+W2\s+...\s+Wn\b` (without the leading boundary, which the
scanners check): keywords separated by runs of whitespace, ending at a
word boundary.  Greediness of `\s+` is deterministic here because every
keyword starts with a non-whitespace character. -/
def matchKwSeq : List PyStr → PyStr → Option PyStr
  | [], _ => none
  | [k], s =>
    match matchKw k s with
    | some t => if endBoundary (s.drop t.length) then some t else none
    | none => none
  | k :: k2 :: ks, s =>
    match matchKw k s with
    | some t =>
      let r := s.drop t.length
      let w := r.takeWhile pyIsSpace
      if w.isEmpty then none
      else
        match matchKwSeq (k2 :: ks) (r.drop w.length) with
        | some t2 => some (t ++ w ++ t2)
        | none => none
    | none => none

/-- First alternative of an alternation `(?:A1|A2|...)` that matches,
in source order (each `Ai` a keyword sequence with trailing `\b`). -/
def matchAlts (alts : List (List PyStr)) (s : PyStr) : Option PyStr :=
  match alts with
  | [] => none
  | a :: rest =>
    match matchKwSeq a s with
    | some t => some t
    | none => matchAlts rest s

/-- Literal `--`. -/
def matchDash2 (s : PyStr) : Option PyStr :=
  if pyStartsWith s (toPy "--") then some (toPy "--") else none

/-- `--\s*,`. -/
def matchDashComma (s : PyStr) : Option PyStr :=
  if pyStartsWith s (toPy "--") then
    let r := s.drop 2
    let w := r.takeWhile pyIsSpace
    match r.drop w.length with
    | ',' :: _ => some (toPy "--" ++ w ++ [','])
    | _ => none
  else none

/-- `--\s*\b(?:alts)\b`, returning (whole match, keyword group text).
The `\b` before the group always holds since the previous character is
`-` or whitespace. -/
def matchDashKw (alts : List (List PyStr)) (s : PyStr) : Option (PyStr × PyStr) :=
  if pyStartsWith s (toPy "--") then
    let r := s.drop 2
    let w := r.takeWhile pyIsSpace
    match matchAlts alts (r.drop w.length) with
    | some t => some (toPy "--" ++ w ++ t, t)
    | none => none
  else none

/-- `\(\s*KW\b`. -/
def matchParenKw (kw : PyStr) (s : PyStr) : Option PyStr :=
  match s with
  | '(' :: r =>
    let w := r.takeWhile pyIsSpace
    match matchKwSeq [kw] (r.drop w.length) with
    | some t => some ('(' :: (w ++ t))
    | none => none
  | _ => none

/-- Word-character status of the character preceding the next scan
position after emitting match text `t`. -/
def boundAfter (t : PyStr) (prev : Bool) : Bool :=
  match t.getLast? with
  | some c => isWordChar c
  | none => prev

/-- `re.finditer` driver: `m` matches a pattern at the start of its
argument given whether the previous character is a word character;
matches are non-overlapping and scanning resumes at each match end.
Recursion is on a fuel argument so the definition is structural (and
kernel-reducible); every iteration consumes at least one character, so
fuel `s.length` (as passed by `finditerGo`) never runs out. -/
def finditerGoF (m : PyStr → Bool → Option PyStr) :
    Nat → PyStr → Bool → List PyStr
  | _, [], _ => []
  | 0, _ :: _, _ => []
  | fuel + 1, c :: rest, prevWord =>
    match m (c :: rest) prevWord with
    | some t =>
      if t.length = 0 then finditerGoF m fuel rest (isWordChar c)
      else t :: finditerGoF m fuel ((c :: rest).drop t.length) (boundAfter t prevWord)
    | none => finditerGoF m fuel rest (isWordChar c)

/-- `re.finditer` over the whole of `s`. -/
def finditerGo (m : PyStr → Bool → Option PyStr) (s : PyStr) (prevWord : Bool) :
    List PyStr :=
  finditerGoF m s.length s prevWord

/-- All matches of `\bW1\s+...\s+Wn\b` (leading boundary included). -/
def finditerKwSeq (kws : List PyStr) (s : PyStr) : List PyStr :=
  finditerGo (fun s prevWord => if prevWord then none else matchKwSeq kws s) s false

/-- `re.search` for an alternation of keyword sequences with `\b`
boundaries: earliest position wins, then source order of alternatives. -/
def searchAlts (alts : List (List PyStr)) (s : PyStr) (prevWord : Bool) :
    Option PyStr :=
  match s with
  | [] => none
  | c :: rest =>
    match (if prevWord then none else matchAlts alts s) with
    | some t => some t
    | none => searchAlts alts rest (isWordChar c)

/-! ### Pattern tables (`left_clause_patterns` and friends) -/

/-- One entry of the `left_clause_patterns` list: either a keyword
sequence `\bW1\s+W2...\b`, or one of the three comment patterns. -/
inductive LeftPat where
  | kws (words : List PyStr)
  | dashComma
  | dashKw
  | dash
deriving DecidableEq

/-- The alternation inside the comment pattern on the
`left_clause_patterns` table (source line 51), in source order. -/
def alts51 : List (List PyStr) :=
  [[toPy "SELECT"], [toPy "FROM"], [toPy "WHERE"], [toPy "GROUP", toPy "BY"],
   [toPy "HAVING"], [toPy "ORDER", toPy "BY"], [toPy "LIMIT"], [toPy "JOIN"],
   [toPy "LEFT", toPy "JOIN"], [toPy "RIGHT", toPy "JOIN"],
   [toPy "INNER", toPy "JOIN"], [toPy "FULL", toPy "JOIN"],
   [toPy "CROSS", toPy "JOIN"], [toPy "UNION"], [toPy "WITH"], [toPy "AS"],
   [toPy "INSERT", toPy "INTO"], [toPy "UPDATE"], [toPy "SET"],
   [toPy "DELETE"], [toPy "DECLARE"], [toPy "DO"]]

/-- The alternation used by the per-line comment scan and by
`_format_comment_line` (source lines 159/161/501), in source order. -/
def alts159 : List (List PyStr) :=
  [[toPy "SELECT"], [toPy "FROM"], [toPy "WHERE"], [toPy "GROUP", toPy "BY"],
   [toPy "HAVING"], [toPy "ORDER", toPy "BY"], [toPy "LIMIT"],
   [toPy "INNER", toPy "JOIN"], [toPy "LEFT", toPy "JOIN"],
   [toPy "RIGHT", toPy "JOIN"], [toPy "FULL", toPy "OUTER", toPy "JOIN"],
   [toPy "LEFT", toPy "OUTER", toPy "JOIN"],
   [toPy "RIGHT", toPy "OUTER", toPy "JOIN"], [toPy "FULL", toPy "JOIN"],
   [toPy "CROSS", toPy "JOIN"], [toPy "JOIN"], [toPy "UNION", toPy "ALL"],
   [toPy "UNION"], [toPy "WITH"], [toPy "AS"],
   [toPy "CREATE", toPy "TEMP", toPy "TABLE"], [toPy "CREATE", toPy "TABLE"],
   [toPy "INSERT", toPy "INTO"], [toPy "UPDATE"], [toPy "SET"],
   [toPy "DELETE"], [toPy "DECLARE"], [toPy "DO"]]

/-- The `left_clause_patterns` table, in source order. -/
def left_clause_patterns : List LeftPat :=
  [.kws [toPy "SELECT", toPy "DISTINCT"], .kws [toPy "SELECT"],
   .kws [toPy "FROM"], .kws [toPy "WHERE"], .kws [toPy "GROUP", toPy "BY"],
   .kws [toPy "HAVING"], .kws [toPy "ORDER", toPy "BY"], .kws [toPy "LIMIT"],
   .kws [toPy "FULL", toPy "OUTER", toPy "JOIN"],
   .kws [toPy "LEFT", toPy "OUTER", toPy "JOIN"],
   .kws [toPy "RIGHT", toPy "OUTER", toPy "JOIN"],
   .kws [toPy "INNER", toPy "JOIN"], .kws [toPy "LEFT", toPy "JOIN"],
   .kws [toPy "RIGHT", toPy "JOIN"], .kws [toPy "FULL", toPy "JOIN"],
   .kws [toPy "CROSS", toPy "JOIN"], .kws [toPy "JOIN"],
   .kws [toPy "UNION", toPy "ALL"], .kws [toPy "UNION"],
   .kws [toPy "WITH"], .kws [toPy "AS"],
   .kws [toPy "CREATE", toPy "TEMP", toPy "TABLE"],
   .kws [toPy "CREATE", toPy "TABLE"], .kws [toPy "INSERT", toPy "INTO"],
   .kws [toPy "UPDATE"], .kws [toPy "SET"], .kws [toPy "DELETE"],
   .dashComma, .dashKw, .dash,
   .kws [toPy "DECLARE"], .kws [toPy "DO"]]

/-- `re.finditer` of one `left_clause_patterns` entry over the input. -/
def finditerLeftPat : LeftPat → PyStr → List PyStr
  | .kws ws, s => finditerKwSeq ws s
  | .dashComma, s => finditerGo (fun s _ => matchDashComma s) s false
  | .dashKw, s => finditerGo (fun s _ => (matchDashKw alts51 s).map Prod.fst) s false
  | .dash, s => finditerGo (fun s _ => matchDash2 s) s false

/-- `secondary_clause_patterns`: the CASE-family keywords. -/
def secondary_clause_patterns : List PyStr :=
  [toPy "CASE", toPy "WHEN", toPy "THEN", toPy "ELSE", toPy "END"]

/-! ### River calculator (`_extract_all_left_clauses` etc.) -/

/-- `_extract_all_left_clauses`: global scan for every clause text, with
the per-line scan for leading commas, `AND `/`OR ` and comments. -/
def extract_all_left_clauses (sql : PyStr) : List PyStr :=
  let fromPats := left_clause_patterns.foldl (fun acc pat =>
    (finditerLeftPat pat sql).foldl
      (fun acc m => dedupAppend acc (normalizeWs (pyStrip m))) acc) []
  (pySplitOn '\n' sql).foldl (fun acc rawLine =>
    let line := pyStrip rawLine
    if pyStartsWith line (toPy ",") then acc ++ [toPy ","]
    else if pyStartsWith line (toPy "AND ") || pyStartsWith line (toPy "OR ") then
      match pyWords line with
      | [] => acc
      | p0 :: _ => acc ++ [p0]
    else if pyStartsWith line (toPy "--") then
      if (matchDashComma line).isSome then dedupAppend acc (toPy "-- ,")
      else
        match matchDashKw alts159 line with
        | some (_, kw) => dedupAppend acc (toPy "-- " ++ pyUpper kw)
        | none => dedupAppend acc (toPy "--")
    else acc) fromPats

/-- `_calculate_primary_river`. -/
def calculate_primary_river (left_clauses : List PyStr) : Int :=
  if left_clauses.isEmpty then 7
  else 7 + (maxLen left_clauses : Int)

/-- The `\bCASE\s+WHEN\b` matches of `_extract_secondary_clauses`. -/
def case_when_matches (sql : PyStr) : List PyStr :=
  finditerKwSeq [toPy "CASE", toPy "WHEN"] sql

/-- The first loop of `_extract_secondary_clauses`: one `CASE WHEN`
entry per compound match, de-duplicated. -/
def caseWhenFold (sql : PyStr) : List PyStr :=
  (case_when_matches sql).foldl
    (fun acc _ => dedupAppend acc (toPy "CASE WHEN")) []

/-- The subquery loop of `_extract_secondary_clauses`: for each of the
patterns `\(\s*SELECT\b`, `\(\s*FROM\b`, `\(\s*WHERE\b`, each match has
its keyword extracted by `re.search(r'\b(SELECT|FROM|WHERE)\b', ...)`,
uppercased and appended with de-duplication. -/
def subqueryFold (sql : PyStr) (acc0 : List PyStr) : List PyStr :=
  [toPy "SELECT", toPy "FROM", toPy "WHERE"].foldl (fun acc kw =>
    (finditerGo (fun s _ => matchParenKw kw s) sql false).foldl (fun acc m =>
      match searchAlts [[toPy "SELECT"], [toPy "FROM"], [toPy "WHERE"]] m false with
      | some t => dedupAppend acc (pyUpper t)
      | none => acc) acc) acc0

/-- The final loop of `_extract_secondary_clauses` over the individual
CASE-family keyword patterns. -/
def caseFamilyFold (sql : PyStr) (acc0 : List PyStr) : List PyStr :=
  secondary_clause_patterns.foldl (fun acc kw =>
    (finditerKwSeq [kw] sql).foldl
      (fun acc m => dedupAppend acc (pyUpper (pyStrip m))) acc) acc0

/-- `_extract_secondary_clauses`. -/
def extract_secondary_clauses (sql : PyStr) : List PyStr :=
  caseFamilyFold sql (subqueryFold sql (caseWhenFold sql))

/-- The subquery clause texts on their own (the subquery loop started
from the empty inventory). -/
def subquery_clause_texts (sql : PyStr) : List PyStr := subqueryFold sql []

/-- `_calculate_secondary_river`. -/
def calculate_secondary_river (primary : Int) (secondary_clauses : List PyStr) :
    Int :=
  if secondary_clauses.isEmpty then primary + 10
  else if (toPy "CASE WHEN") ∈ secondary_clauses then primary + 10
  else primary + (maxLen secondary_clauses : Int) + 4

/-! ### CTE structure analysis -/

/-- `_remove_comments`: cut each line at its first `--`. -/
def remove_comments (sql : PyStr) : PyStr :=
  pyJoin [toPy "\n"].flatten ((pySplitOn '\n' sql).map (fun line =>
    if pyContains line (toPy "--") then cutAtDash line else line))
where
  cutAtDash : PyStr → PyStr
    | [] => []
    | c :: rest =>
      if pyStartsWith (c :: rest) (toPy "--") then []
      else c :: cutAtDash rest

/-- One attempt of `(\w+)\s+AS\s*(\([^)]+\))` at the start of `s`:
returns (name, parenthesized content, remainder after the match). -/
def matchCteDef (s : PyStr) : Option (PyStr × PyStr × PyStr) :=
  let w := s.takeWhile isWordChar
  if w.isEmpty then none
  else
    let r := s.drop w.length
    let ws1 := r.takeWhile pyIsSpace
    if ws1.isEmpty then none
    else
      let r2 := r.drop ws1.length
      if pyUpper (r2.take 2) == toPy "AS" && r2.length ≥ 2 then
        let r3 := r2.drop 2
        let r4 := r3.drop (r3.takeWhile pyIsSpace).length
        match r4 with
        | '(' :: r5 =>
          let inner := r5.takeWhile (fun c => c ≠ ')')
          if inner.isEmpty then none
          else
            match r5.drop inner.length with
            | ')' :: r6 => some (w, ('(' :: inner) ++ [')'], r6)
            | _ => none
        | _ => none
      else none

/-- `re.finditer(r'(\w+)\s+AS\s*(\([^)]+\))', ...)`: list of
(name, content, remainder-after-match) triples, leftmost first.
Fuel-structural like `finditerGoF`; the length guard is always true (a
match consumes at least the name, the `AS` and the body) and keeps the
fuel invariant obvious. -/
def finditerCteDefsF : Nat → PyStr → List (PyStr × PyStr × PyStr)
  | _, [] => []
  | 0, _ :: _ => []
  | fuel + 1, c :: rest =>
    match matchCteDef (c :: rest) with
    | some (w, content, r6) =>
      if r6.length < (c :: rest).length then
        (w, content, r6) :: finditerCteDefsF fuel r6
      else finditerCteDefsF fuel rest
    | none => finditerCteDefsF fuel rest

/-- All CTE-definition matches in `s`. -/
def finditerCteDefs (s : PyStr) : List (PyStr × PyStr × PyStr) :=
  finditerCteDefsF s.length s

/-- One CTE entry as recorded by `_analyze_cte_structure`. -/
structure CTEEntry where
  name : PyStr
  start_line : Nat
  end_line : Nat
  has_parentheses : Bool
deriving DecidableEq

/-- `_analyze_cte_structure`. -/
def analyze_cte_structure (sql : PyStr) : List CTEEntry :=
  let sql_clean := remove_comments sql
  let cte_matches := finditerCteDefs sql_clean
  if cte_matches.isEmpty then []
  else
    let entries := cte_matches.map (fun m =>
      { name := pyUpper m.1, start_line := 1, end_line := 1,
        has_parentheses := true : CTEEntry })
    match cte_matches.getLast? with
    | some last =>
      let remaining_sql := pyStrip last.2.2
      if (searchAlts [[toPy "SELECT"]] remaining_sql false).isSome then
        entries ++ [{ name := toPy "MAIN_QUERY", start_line := 1, end_line := 1,
                      has_parentheses := false }]
      else entries
    | none => entries

/-! ### Logical line splitter (`_split_into_logical_lines`) -/

/-- The keyword list of the splitter (source line 717). -/
def splitterKeywords : List PyStr :=
  [toPy "SELECT", toPy "FROM", toPy "WHERE", toPy "GROUP", toPy "BY",
   toPy "ORDER", toPy "HAVING", toPy "UNION", toPy "AND", toPy "OR"]

/-- The compound-keyword look-ahead of the splitter (source lines
718-740): after reading a GROUP/ORDER/UNION token, if the two (three)
characters following the next whitespace run uppercase to `BY` (`ALL`),
the fused token is produced and exactly those characters are consumed. -/
def fuseCompound (token : PyStr) (rest : PyStr) : PyStr × PyStr :=
  if (pyUpper token == toPy "GROUP" || pyUpper token == toPy "ORDER" ||
      pyUpper token == toPy "UNION") && !rest.isEmpty then
    let ns := rest.dropWhile pyIsSpace
    if !ns.isEmpty then
      if pyUpper token == toPy "GROUP" then
        if pyUpper (ns.take 2) == toPy "BY" then (toPy "GROUP BY", ns.drop 2)
        else (token, rest)
      else if pyUpper token == toPy "ORDER" then
        if pyUpper (ns.take 2) == toPy "BY" then (toPy "ORDER BY", ns.drop 2)
        else (token, rest)
      else
        if pyUpper (ns.take 3) == toPy "ALL" then (toPy "UNION ALL", ns.drop 3)
        else (token, rest)
    else (token, rest)
  else (token, rest)

/-- `if current_tokens: lines.append(' '.join(current_tokens))`. -/
def closeCur (cur : List PyStr) : List PyStr :=
  if cur.isEmpty then [] else [pyJoin [' '] cur]

/-- Reading one token at the front of the (whitespace-skipped) input:
`,` and `;` are single-character tokens, anything else is a maximal run
of characters that are neither whitespace nor `,`/`;`. -/
def readToken (c : Char) (rest : PyStr) : PyStr × PyStr :=
  if c = ',' ∨ c = ';' then ([c], rest)
  else
    ((c :: rest).takeWhile (fun ch => !pyIsSpace ch && ch ≠ ',' && ch ≠ ';'),
     (c :: rest).drop
       ((c :: rest).takeWhile
         (fun ch => !pyIsSpace ch && ch ≠ ',' && ch ≠ ';')).length)

/-- The tokenizing loop of `_split_into_logical_lines`.  Fuel-structural;
each iteration consumes at least one character, so fuel `sql.length`
never runs out.  AND/OR and the other clause keywords close the current
line and open a new one carrying the token (identical branch bodies in
the source). -/
def splitGoF : Nat → PyStr → List PyStr → List PyStr → List PyStr
  | 0, _, cur, acc => acc ++ closeCur cur
  | fuel + 1, s, cur, acc =>
    match s.dropWhile pyIsSpace with
    | [] => acc ++ closeCur cur
    | c :: rest =>
      if (readToken c rest).1 = [','] ∧ cur.isEmpty = false then
        splitGoF fuel (readToken c rest).2 [[',']] (acc ++ [pyJoin [' '] cur])
      else if (readToken c rest).1 = [';'] then
        splitGoF fuel (readToken c rest).2 [] (acc ++ closeCur cur ++ [[';']])
      else if splitterKeywords.contains (pyUpper (readToken c rest).1) ||
              pyStartsWith (readToken c rest).1 (toPy "--") then
        splitGoF fuel (fuseCompound (readToken c rest).1 (readToken c rest).2).2
          [(fuseCompound (readToken c rest).1 (readToken c rest).2).1]
          (acc ++ closeCur cur)
      else
        splitGoF fuel (readToken c rest).2 (cur ++ [(readToken c rest).1]) acc

/-- `_split_into_logical_lines`. -/
def split_into_logical_lines (sql : PyStr) : List PyStr :=
  let sql := pyStrip sql
  if sql.isEmpty then [] else splitGoF sql.length sql [] []

/-! ### Formatter state -/

/-- The fields of `RiverFormatter` read during rendering, computed once
by the analysis phase and immutable afterwards. -/
structure FmtState where
  primary_river_pos : Int
  secondary_river_pos : Int
  left_clauses : List PyStr
  secondary_clauses : List PyStr
  cte_structure : List CTEEntry
deriving DecidableEq

/-! ### Comment line renderer (`_format_comment_line`) -/

/-- `_format_comment_line`. -/
def format_comment_line (st : FmtState) (line : PyStr) : PyStr :=
  let comment_content :=
    if pyStartsWith line (toPy "--") then
      toPy "-- " ++ (line.drop 2).dropWhile pyIsSpace
    else line
  match matchDashComma comment_content with
  | some m =>
    let clause := toPy "-- ,"
    let remaining := pyStrip (comment_content.drop m.length)
    let clause_pos := st.primary_river_pos - (clause.length : Int)
    if remaining.isEmpty then mkSpaces clause_pos ++ clause
    else mkSpaces clause_pos ++ clause ++ [' '] ++ remaining
  | none =>
  match matchDashKw alts159 comment_content with
  | some (whole, kw) =>
    let clause := toPy "-- " ++ pyUpper kw
    let remaining := pyStrip (comment_content.drop whole.length)
    let clause_pos := st.primary_river_pos - (clause.length : Int)
    if remaining.isEmpty then mkSpaces clause_pos ++ clause
    else mkSpaces clause_pos ++ clause ++ [' '] ++ remaining
  | none =>
    let clause := toPy "--"
    let remaining := pyStrip (comment_content.drop 2)
    let clause_pos := st.primary_river_pos - (clause.length : Int)
    if remaining.isEmpty then mkSpaces clause_pos ++ clause
    else mkSpaces clause_pos ++ clause ++ [' '] ++ remaining

/-! ### CASE clause renderer (`_format_case_clause`)

The three `re.match` patterns `(...\s+.*?)\s+(THEN\s+.*)` need the
backtracking order of the Python engine.  After the mandatory
`WHEN\s+` prefix, write the remainder as `r = ws-run ++ r1` with `r1`
starting in a non-space.  Preferring a maximal first `\s+`, the lazy
`.*?` then looks for the earliest split point `q` in `r1` where a
whitespace run is followed by `THEN` and at least one more whitespace
character.  If no such `q` exists the engine gives back one character
of the `WHEN\s+` run (needs run length ≥ 2) so that the second `\s+`
can match there, with an empty `.*?`; all further give-backs coincide
with that candidate.  (`.*?` cannot cross a newline; the strings
rendered here never contain one, but the scan stops there anyway.) -/

/-- Accept test at the head of a suffix `s` of `r1`: a whitespace run
followed by `THEN` (case-insensitively) and one more whitespace. -/
def thenSplitAccept (s : PyStr) : Bool :=
  match s with
  | [] => false
  | c :: _ =>
    pyIsSpace c &&
      (let r' := s.dropWhile pyIsSpace
       pyUpper (r'.take 4) == toPy "THEN" &&
         (match r'.drop 4 with
          | d :: _ => pyIsSpace d
          | [] => false))

/-- Scan for the earliest accepted split point, stopping after a
newline (which `.*?` cannot absorb). -/
def scanThenGo : PyStr → Nat → Option Nat
  | [], _ => none
  | c :: rest, q =>
    if thenSplitAccept (c :: rest) then some q
    else if c = '\n' then none
    else scanThenGo rest (q + 1)

/-- Match `\s+.*?\s+(THEN\s+.*)` against `r`, the text following the
`WHEN` keyword: returns (text matched before the group, group text). -/
def matchAfterWhen (r : PyStr) : Option (PyStr × PyStr) :=
  let w := r.takeWhile pyIsSpace
  if w.isEmpty then none
  else
    let r1 := r.drop w.length
    match scanThenGo r1 0 with
    | some q => some (w ++ r1.take q, (r1.drop q).dropWhile pyIsSpace)
    | none =>
      if w.length ≥ 2 && pyUpper (r1.take 4) == toPy "THEN" &&
          (match r1.drop 4 with
           | d :: _ => pyIsSpace d
           | [] => false) then
        some (r.take (w.length - 1), r1)
      else none

/-- `CASE\s+WHEN` at the start (case-insensitive):
(matched text, remainder). -/
def matchCaseWhenCore (s : PyStr) : Option (PyStr × PyStr) :=
  match matchKw (toPy "CASE") s with
  | some t1 =>
    let r := s.drop t1.length
    let w := r.takeWhile pyIsSpace
    if w.isEmpty then none
    else
      match matchKw (toPy "WHEN") (r.drop w.length) with
      | some t2 => some (t1 ++ w ++ t2, (r.drop w.length).drop t2.length)
      | none => none
  | none => none

/-- `re.match(r'(CASE\s+WHEN\s+.*?)\s+(THEN\s+.*)', line)`:
(group 1, group 2). -/
def matchCaseWhenThen (line : PyStr) : Option (PyStr × PyStr) :=
  match matchCaseWhenCore line with
  | some (t, r) =>
    (matchAfterWhen r).map (fun m => (t ++ m.1, m.2))
  | none => none

/-- `re.match(r'(,\s*CASE\s+WHEN\s+.*?)\s+(THEN\s+.*)', line)`. -/
def matchCommaCaseWhenThen (line : PyStr) : Option (PyStr × PyStr) :=
  match line with
  | ',' :: rest =>
    let w0 := rest.takeWhile pyIsSpace
    match matchCaseWhenCore (rest.drop w0.length) with
    | some (t, r) =>
      (matchAfterWhen r).map (fun m => (',' :: (w0 ++ t ++ m.1), m.2))
    | none => none
  | _ => none

/-- `re.match(r'(WHEN\s+.*?)\s+(THEN\s+.*)', line)`. -/
def matchWhenThen (line : PyStr) : Option (PyStr × PyStr) :=
  match matchKw (toPy "WHEN") line with
  | some t =>
    (matchAfterWhen (line.drop t.length)).map (fun m => (t ++ m.1, m.2))
  | none => none

/-- `_is_case_clause`: some CASE-family keyword matches at the start
(`re.match(r'\bKW\b', line)`). -/
def is_case_clause (line : PyStr) : Bool :=
  secondary_clause_patterns.any (fun kw => (matchKwSeq [kw] line).isSome)

/-- The individual-keyword loop at the end of `_format_case_clause`. -/
def caseKwLoop (st : FmtState) (line : PyStr) : List PyStr → Option PyStr
  | [] => none
  | kw :: rest =>
    match matchKwSeq [kw] line with
    | some t =>
      let clause := pyUpper (pyStrip t)
      let remaining := pyStrip (line.drop t.length)
      -- CASE aligns to the primary river; WHEN/THEN/ELSE/END (and the
      -- default arm) all align to the secondary river in the source.
      let clause_pos :=
        if clause = toPy "CASE" then
          st.primary_river_pos - (clause.length : Int)
        else st.secondary_river_pos - (clause.length : Int)
      if remaining.isEmpty then some (mkSpaces (max 0 clause_pos) ++ clause)
      else some (mkSpaces (max 0 clause_pos) ++ clause ++ [' '] ++ remaining)
    | none => caseKwLoop st line rest

/-- `_format_case_clause` up to (and including) the individual-keyword
loop; `none` means the source would fall back to
`_format_line_preserving_tokens`. -/
def caseAux (st : FmtState) (line : PyStr) : Option PyStr :=
  match matchCommaCaseWhenThen line with
  | some (g1, g2) =>
    let comma_case_when_part := pyStrip g1
    let then_part := pyStrip g2
    let comma_pos := st.primary_river_pos - 1
    let content_pos := st.primary_river_pos + 1
    let case_when_part := pyStrip (comma_case_when_part.drop 1)
    some (mkSpaces comma_pos ++ [','] ++ mkSpaces (content_pos - comma_pos - 1)
          ++ case_when_part ++ [' '] ++ then_part)
  | none =>
  match matchCaseWhenThen line with
  | some (g1, g2) =>
    let case_when_part := pyStrip g1
    let then_part := pyStrip g2
    let case_pos := st.primary_river_pos - 4
    some (mkSpaces (max 0 case_pos) ++ case_when_part ++ [' '] ++ then_part)
  | none =>
  match matchWhenThen line with
  | some (g1, g2) =>
    let when_part := pyStrip g1
    let then_part := pyStrip g2
    let when_pos := st.secondary_river_pos - 4
    some (mkSpaces (max 0 when_pos) ++ when_part ++ [' '] ++ then_part)
  | none => caseKwLoop st line secondary_clause_patterns

/-! ### Subquery line renderer (`_format_subquery_line`) -/

/-- Scan for `re.search(r'(.*?)\(\s*(SELECT\b)(.*)', line)`: the
earliest `(` followed by optional whitespace and `SELECT` with a word
boundary.  Returns (index of the `(`, matched `SELECT` text, text after
it).  `_is_subquery_line` is the success test of the same scan. -/
def subqSearchGo : PyStr → Nat → Option (Nat × PyStr × PyStr)
  | [], _ => none
  | '(' :: r, i =>
    let w := r.takeWhile pyIsSpace
    (match matchKwSeq [toPy "SELECT"] (r.drop w.length) with
     | some t => some (i, t, (r.drop w.length).drop t.length)
     | none => subqSearchGo r (i + 1))
  | _ :: r, i => subqSearchGo r (i + 1)

/-- `_is_subquery_line`. -/
def is_subquery_line (line : PyStr) : Bool := (subqSearchGo line 0).isSome

/-- One `re.match(pattern, line)` attempt for a `left_clause_patterns`
entry (`\b` at position 0 holds whenever the literal matches). -/
def matchLeftPatAt0 : LeftPat → PyStr → Option PyStr
  | .kws ws, s => matchKwSeq ws s
  | .dashComma, s => matchDashComma s
  | .dashKw, s => (matchDashKw alts51 s).map Prod.fst
  | .dash, s => matchDash2 s

/-- First pattern of the table matching at the start, in source order. -/
def matchLeftAt0Go : List LeftPat → PyStr → Option PyStr
  | [], _ => none
  | p :: rest, s =>
    match matchLeftPatAt0 p s with
    | some t => some t
    | none => matchLeftAt0Go rest s

/-! ### Line renderer (`_format_line_preserving_tokens`)

`_format_line_preserving_tokens` and `_format_subquery_line` are
mutually recursive in the source (the subquery renderer formats the
text before the parenthesis with the line renderer).  The nested line
is strictly shorter, so the recursion is embedded with a fuel argument
(structural, hence kernel-reducible); `line.length + 1` fuel always
suffices, and the fuel-exhausted value is never reached. -/

/-- `_format_line_preserving_tokens` (body, fuel-indexed). -/
def format_lineF (st : FmtState) : Nat → PyStr → Bool → PyStr
  | 0, _, _ => []
  | fuel + 1, line, in_subquery =>
    if line.isEmpty then []
    else
      let t := pyStrip line
      -- 1. SELECT keeps only its first projected item
      if pyStartsWith (pyUpper t) (toPy "SELECT ") then
        let content := t.drop 7
        let river_pos :=
          if in_subquery ∧ st.secondary_river_pos ≠ 0 ∧
              (toPy "SELECT") ∈ st.secondary_clauses ∧
              (toPy "CASE WHEN") ∈ st.secondary_clauses then
            st.secondary_river_pos
          else st.primary_river_pos
        let select_pos := river_pos - 6
        if (',') ∈ content then
          let first_item := pyStrip (content.takeWhile (fun c => c ≠ ','))
          mkSpaces (max 0 select_pos) ++ toPy "SELECT " ++ first_item
        else mkSpaces (max 0 select_pos) ++ toPy "SELECT " ++ content
      -- 2. comma-first continuation
      else if pyStartsWith t (toPy ",") then
        let content := pyStrip (t.drop 1)
        -- the source computes primary - 2 first, then overrides the
        -- comma position to primary - 1 so that exactly one space
        -- separates the comma from content at primary + 1
        let comma_pos := st.primary_river_pos - 1
        let content_pos := st.primary_river_pos + 1
        let spaces_after_comma := content_pos - comma_pos - 1
        mkSpaces comma_pos ++ [','] ++ mkSpaces spaces_after_comma ++ content
      -- 3. comment lines
      else if pyStartsWith t (toPy "--") then format_comment_line st t
      -- 4. CASE clauses (the `getD` default is unreachable:
      --    `is_case_clause` makes the keyword loop of `caseAux`
      --    succeed; the source would recurse forever otherwise)
      else if is_case_clause t then
        (caseAux st t).getD (mkSpaces (st.primary_river_pos + 1) ++ t)
      -- 5. subquery pattern `( SELECT` (the body of
      --    `_format_subquery_line`, whose own fallback is unreachable
      --    under this guard)
      else
        match subqSearchGo t 0 with
        | some (i, selTok, after) =>
          let before_paren := pyStrip (t.take i)
          let select_keyword := pyUpper selTok
          let after_select := pyStrip after
          let res1 : List PyStr :=
            if before_paren.isEmpty then []
            else [format_lineF st fuel before_paren false]
          let paren_pos := st.primary_river_pos + 1
          let select_line :=
            if st.secondary_river_pos ≠ 0 then
              let select_pos :=
                st.secondary_river_pos - (select_keyword.length : Int)
              if after_select.isEmpty then
                mkSpaces (max 0 select_pos) ++ select_keyword
              else
                mkSpaces (max 0 select_pos) ++ select_keyword ++ [' '] ++
                  after_select
            else
              if after_select.isEmpty then
                format_lineF st fuel select_keyword false
              else
                format_lineF st fuel (select_keyword ++ [' '] ++ after_select)
                  false
          pyJoin ['\n'] (res1 ++ [mkSpaces paren_pos ++ toPy "("] ++
            [select_line])
        | none =>
        -- 6. the ordered left-clause pattern table
        match matchLeftAt0Go left_clause_patterns t with
        | some clauseText =>
          let clause := pyStrip clauseText
          let remaining := pyStrip (t.drop clause.length)
          let clause_pos :=
            if in_subquery ∧ st.secondary_river_pos ≠ 0 ∧
                (toPy "SELECT") ∈ st.secondary_clauses ∧
                (toPy "CASE WHEN") ∈ st.secondary_clauses ∧
                (pyUpper clause) ∈
                  [toPy "SELECT", toPy "FROM", toPy "WHERE", toPy "GROUP BY",
                   toPy "ORDER BY", toPy "HAVING"] then
              st.secondary_river_pos - (clause.length : Int)
            else st.primary_river_pos - (clause.length : Int)
          if remaining.isEmpty then mkSpaces (max 0 clause_pos) ++ clause
          else mkSpaces (max 0 clause_pos) ++ clause ++ [' '] ++ remaining
        | none =>
          -- 7. logical operators AND/OR
          if pyStartsWith (pyUpper t) (toPy "AND ") ∨
              pyStartsWith (pyUpper t) (toPy "OR ") then
            let first := t.takeWhile (fun c => !pyIsSpace c)
            let rest := (t.drop first.length).dropWhile pyIsSpace
            let operator := pyUpper first
            let condition := rest
            let operator_pos := st.primary_river_pos - (operator.length : Int)
            mkSpaces operator_pos ++ operator ++ [' '] ++ condition
          -- 8. lone semicolon
          else if t = [';'] then
            mkSpaces (st.primary_river_pos + 1) ++ [';']
          -- 9. default right-hand content
          else mkSpaces (st.primary_river_pos + 1) ++ t

/-- `_format_line_preserving_tokens`. -/
def format_line_preserving_tokens (st : FmtState) (line : PyStr)
    (in_subquery : Bool := false) : PyStr :=
  format_lineF st (line.length + 1) line in_subquery

/-- `_format_case_clause` (its final fallback delegates to the line
renderer). -/
def format_case_clause (st : FmtState) (line : PyStr) : PyStr :=
  (caseAux st line).getD (format_line_preserving_tokens st line)

/-- `_format_subquery_line`.  Its successful branch is the same text as
branch 5 of `format_lineF` (the source is called there under the
`_is_subquery_line` guard); nested renderings restart with fresh fuel. -/
def format_subquery_line (st : FmtState) (line : PyStr) : PyStr :=
  match subqSearchGo line 0 with
  | some (i, selTok, after) =>
    let before_paren := pyStrip (line.take i)
    let select_keyword := pyUpper selTok
    let after_select := pyStrip after
    let res1 : List PyStr :=
      if before_paren.isEmpty then []
      else [format_line_preserving_tokens st before_paren]
    let paren_pos := st.primary_river_pos + 1
    let select_line :=
      if st.secondary_river_pos ≠ 0 then
        let select_pos := st.secondary_river_pos - (select_keyword.length : Int)
        if after_select.isEmpty then
          mkSpaces (max 0 select_pos) ++ select_keyword
        else
          mkSpaces (max 0 select_pos) ++ select_keyword ++ [' '] ++ after_select
      else
        if after_select.isEmpty then
          format_line_preserving_tokens st select_keyword
        else
          format_line_preserving_tokens st (select_keyword ++ [' '] ++ after_select)
    pyJoin ['\n'] (res1 ++ [mkSpaces paren_pos ++ toPy "("] ++ [select_line])
  | none => format_line_preserving_tokens st line

/-! ### CTE bracket processor (`_process_cte_brackets`) -/

/-- `re.search(r'\bAS\s*\(', line)` combined with
`re.split(r'(\bAS)\s*\(', line, 1)`: at the first position where a
word-bounded `AS` is followed by optional whitespace and `(`, return
(text before `AS`, the matched `AS` in original case, text after the
`(`). -/
def searchAsParenGo : PyStr → PyStr → Bool → Option (PyStr × PyStr × PyStr)
  | _, [], _ => none
  | seen, c :: rest, prevWord =>
    (if !prevWord && pyUpper ((c :: rest).take 2) == toPy "AS" then
      let r2 := (c :: rest).drop 2
      let w := r2.takeWhile pyIsSpace
      match r2.drop w.length with
      | '(' :: after => some (seen.reverse, (c :: rest).take 2, after)
      | _ => searchAsParenGo (c :: seen) rest (isWordChar c)
    else searchAsParenGo (c :: seen) rest (isWordChar c))

/-- `_is_case_line`. -/
def is_case_line (line : PyStr) : Bool :=
  let line_upper := pyUpper (pyStrip line)
  -- the literal keyword list of the source is the same as
  -- `secondary_clause_patterns`
  secondary_clause_patterns.any
    (fun kw => pyStartsWith line_upper (kw ++ [' ']) || line_upper == kw) ||
  (matchKwSeq [toPy "CASE", toPy "WHEN"] line).isSome

/-- `_process_cte_brackets` (`none` = no special bracket processing;
the `line_num` argument of the source is unused and omitted). -/
def process_cte_brackets (st : FmtState) (line : PyStr) : Option PyStr :=
  match searchAsParenGo [] line false with
  | some (before, asTok, _after) =>
    let before_as := pyStrip before
    let as_part := pyStrip asTok
    let after_paren := pyStrip _after
    let as_clause_with_paren := pyStrip (before_as ++ [' '] ++ as_part ++ toPy " (")
    let formatted_as := format_line_preserving_tokens st as_clause_with_paren
    if after_paren.isEmpty then some formatted_as
    else
      some (formatted_as ++ ['\n'] ++
        format_line_preserving_tokens st after_paren)
  | none =>
    if pyStrip line = toPy ")" then
      some (mkSpaces (st.primary_river_pos + 1) ++ toPy ")")
    else if pyEndsWith (pyStrip line) (toPy ")") ∧ (pyStrip line).length > 1 then
      let content := pyStrip (pyStrip line).dropLast
      if content.isEmpty then none
      else
        some (format_line_preserving_tokens st content ++ ['\n'] ++
          mkSpaces (st.primary_river_pos + 1) ++ toPy ")")
    else none

/-! ### The rendering loop of `_format_with_river` -/

/-- The per-line parenthesis tracking of the loop: counts of `(` and
`)` update the depth, clamped at zero, toggling the subquery flag. -/
def parenUpdate (current_line : PyStr) (pd : Int) (isq : Bool) : Int × Bool :=
  let pd1 := if '(' ∈ current_line then pd + (current_line.count '(' : Int) else pd
  let is1 := if '(' ∈ current_line then (if pd1 > 0 then true else isq) else isq
  if ')' ∈ current_line then
    let pdm := pd1 - (current_line.count ')' : Int)
    if pdm ≤ 0 then (0, false) else (pdm, is1)
  else (pd1, is1)

/-- Rendering of one logical line after the merge and coalesce checks:
bracket processing first, then CASE formatting, then the standard line
renderer with the saved subquery flag. -/
def renderBody (st : FmtState) (current_line : PyStr)
    (format_in_subquery : Bool) : List PyStr :=
  match process_cte_brackets st current_line with
  | some s => pySplitOn '\n' s
  | none =>
    if is_case_line current_line then [format_case_clause st current_line]
    else [format_line_preserving_tokens st current_line format_in_subquery]

/-- The main loop of `_format_with_river`: WHEN/THEN look-ahead merges
(patterns 1-4), parenthesis tracking, `)`+`;` coalescing, then
`renderBody`. -/
def renderLoop (st : FmtState) : List PyStr → Int → Bool → List PyStr
  | [], _, _ => []
  | [l], _pd, isq =>
    if (pyStrip l).isEmpty then [[]]
    else renderBody st (pyStrip l) isq
  | l :: next :: rest2, pd, isq =>
    if (pyStrip l).isEmpty then [] :: renderLoop st (next :: rest2) pd isq
    else
      let cu := pyUpper (pyStrip l)
      let nu := pyUpper (pyStrip next)
      if pyStartsWith cu (toPy "WHEN ") ∧ pyStartsWith nu (toPy "THEN ") then
        format_case_clause st (pyStrip l ++ [' '] ++ pyStrip next) ::
          renderLoop st rest2 pd isq
      else if (pyStartsWith cu (toPy "CASE WHEN ") ∨
               pyStartsWith cu (toPy ", CASE WHEN ")) ∧
              pyStartsWith nu (toPy "THEN ") then
        format_case_clause st (pyStrip l ++ [' '] ++ pyStrip next) ::
          renderLoop st rest2 pd isq
      else if cu = toPy "CASE WHEN" ∧ pyEndsWith nu (toPy " THEN") then
        format_case_clause st (pyStrip l ++ [' '] ++ pyStrip next) ::
          renderLoop st rest2 pd isq
      else if cu = toPy "WHEN" ∧ pyEndsWith nu (toPy " THEN") then
        format_case_clause st (pyStrip l ++ [' '] ++ pyStrip next) ::
          renderLoop st rest2 pd isq
      else
        let pb := parenUpdate (pyStrip l) pd isq
        if pyStrip l = toPy ")" ∧ pyStrip next = toPy ";" then
          (mkSpaces (st.primary_river_pos + 1) ++ toPy ");") ::
            renderLoop st rest2 pb.1 pb.2
        else
          renderBody st (pyStrip l) isq ++
            renderLoop st (next :: rest2) pb.1 pb.2

/-! ### CTE blank-line postprocessor (`_insert_cte_blank_lines`) -/

/-- First line whose stripped form is non-empty. -/
def firstNonEmpty : List PyStr → Option PyStr
  | [] => none
  | x :: t => if (pyStrip x).isEmpty then firstNonEmpty t else some x

/-- Does the next non-empty line start a sibling CTE (leading comma) or
the main query (SELECT/INSERT/UPDATE/DELETE)? -/
def cteNextCheck (rest : List PyStr) : Bool :=
  match firstNonEmpty rest with
  | none => false
  | some nl =>
    let stripped_next := pyLStrip nl
    pyStartsWith stripped_next (toPy ",") ||
    [toPy "SELECT", toPy "INSERT", toPy "UPDATE", toPy "DELETE"].any
      (fun clause => pyStartsWith (pyUpper stripped_next) clause)

/-- The insertion walk of `_insert_cte_blank_lines`. -/
def insertGo (st : FmtState) : List PyStr → List PyStr
  | [] => []
  | l :: rest =>
    let restOut := insertGo st rest
    if pyStrip l = toPy ")" ∧
        ((l.length : Int) - ((pyLStrip l).length : Int) =
          st.primary_river_pos + 1) ∧
        cteNextCheck rest then
      l :: ([] : PyStr) :: restOut
    else l :: restOut

/-- `_insert_cte_blank_lines`. -/
def insert_cte_blank_lines (st : FmtState) (formatted_lines : List PyStr) :
    List PyStr :=
  if st.cte_structure.length ≤ 1 then formatted_lines
  else insertGo st formatted_lines

/-! ### `_format_with_river` and `format_sql` -/

/-- `_format_with_river` (given an already-computed state). -/
def format_with_river (st : FmtState) (sql : PyStr) : PyStr :=
  let input_lines := pySplitOn '\n' sql
  let logical_lines := input_lines.foldl (fun acc line =>
    if pyStartsWith (pyStrip line) (toPy "--") then acc ++ [pyStrip line]
    else acc ++ split_into_logical_lines line) []
  let formatted_lines := renderLoop st logical_lines 0 false
  pyJoin ['\n'] (insert_cte_blank_lines st formatted_lines)

/-- Steps 1-4 of `format_sql`: the analysis phase, building the
immutable state read by rendering. -/
def mkState (sql : PyStr) : FmtState :=
  let cte := analyze_cte_structure sql
  let lc := extract_all_left_clauses sql
  let sc := extract_secondary_clauses sql
  let p := calculate_primary_river lc
  { primary_river_pos := p,
    secondary_river_pos := calculate_secondary_river p sc,
    left_clauses := lc, secondary_clauses := sc, cte_structure := cte }

/-- `format_sql`: the formatting entry point. -/
def format_sql (sql : PyStr) : PyStr :=
  if (pyStrip sql).isEmpty then sql
  else format_with_river (mkState sql) sql

/-! ### Verifier (`verify_river_lines`) -/

/-- The CASE-context exemption of the verifier: the uppercased line
contains one of `WHEN `/`THEN `/`ELSE `/`END ` (keyword plus a
trailing space) as a substring. -/
def is_case_context (line : PyStr) : Bool :=
  [toPy "WHEN ", toPy "THEN ", toPy "ELSE ", toPy "END "].any
    (fun clause_word => pyContains (pyUpper line) clause_word)

/-- The line scan of `verify_river_lines` (the source indexes
`line[primary]` under a `len(line) > primary` guard; the formatter
always calls it with `primary ≥ 7`, so plain non-negative indexing is
the faithful model). -/
def verifyGo (primary : Int) : List PyStr → Bool
  | [] => true
  | line :: rest =>
    if (line.length : Int) > primary then
      let char_at_river := line.getD primary.toNat ' '
      if char_at_river ≠ ' ' ∧ !is_case_context line then false
      else verifyGo primary rest
    else verifyGo primary rest

/-- `verify_river_lines` (a pure predicate over the rendered text: it
returns a Bool and never alters the text). -/
def verify_river_lines (primary : Int) (formatted_sql : PyStr) : Bool :=
  verifyGo primary (pySplitOn '\n' formatted_sql)

/-! ## Helper lemmas -/

theorem foldl_max_len (l : List PyStr) (a : Nat) :
    l.foldl (fun m c => max m c.length) a = max a (maxLen l) := by
  induction l generalizing a with
  | nil => simp [maxLen]
  | cons c t ih =>
    simp only [maxLen, List.foldl_cons] at *
    rw [ih, ih (max 0 c.length)]
    omega

theorem maxLen_cons (c : PyStr) (t : List PyStr) :
    maxLen (c :: t) = max c.length (maxLen t) := by
  show List.foldl (fun m c => max m c.length) (max 0 c.length) t
      = max c.length (maxLen t)
  rw [foldl_max_len]
  omega

theorem length_le_maxLen {x : PyStr} {l : List PyStr} (h : x ∈ l) :
    x.length ≤ maxLen l := by
  induction l with
  | nil => cases h
  | cons c t ih =>
    rw [maxLen_cons]
    rcases List.mem_cons.mp h with h | h
    · subst h; omega
    · have := ih h
      omega

theorem maxLen_dedup (l : List PyStr) : maxLen l.dedup = maxLen l := by
  induction l with
  | nil => rfl
  | cons c t ih =>
    by_cases h : c ∈ t
    · rw [List.dedup_cons_of_mem h, ih, maxLen_cons]
      have := length_le_maxLen h
      omega
    · rw [List.dedup_cons_of_not_mem h, maxLen_cons, maxLen_cons, ih]

theorem pyUpper_cons (c : Char) (s : PyStr) :
    pyUpper (c :: s) = Char.toUpper c :: pyUpper s := rfl

theorem pyStartsWith_cons_ne {c d : Char} {s p : PyStr} (h : (d == c) = false) :
    pyStartsWith (c :: s) (d :: p) = false := by
  simp only [pyStartsWith, List.isPrefixOf_cons₂, h, Bool.false_and]

theorem mkSpaces_length (n : Int) : (mkSpaces n).length = n.toNat := by
  simp [mkSpaces]

theorem mem_mkSpaces {c : Char} {n : Int} (h : c ∈ mkSpaces n) : c = ' ' :=
  List.eq_of_mem_replicate h

/-! ## Claim theorems -/

/-- C1: for every input document, the primary river position computed
by the analysis phase (`_calculate_primary_river` applied to the clause
inventory of `_extract_all_left_clauses`) equals `7` plus the maximum
length over the distinct recognized clause texts collected from
anywhere in the document, and equals `7` when no clause text is found.
(The inventory can repeat `,`/`AND`/`OR`; the maximum over the
de-duplicated texts is stated, which is what "distinct" requires.) -/
theorem primary_river_formula (sql : PyStr) :
    calculate_primary_river (extract_all_left_clauses sql) =
      if extract_all_left_clauses sql = [] then 7
      else 7 + (maxLen (extract_all_left_clauses sql).dedup : Int) := by
  by_cases h : extract_all_left_clauses sql = []
  · simp [calculate_primary_river, h]
  · rw [if_neg h]
    unfold calculate_primary_river
    rw [if_neg (by simpa using h)]
    rw [maxLen_dedup]

/-- C5: an input that is empty or all-whitespace is returned unchanged
by the formatting entry point (which, being a total Lean function,
cannot raise), and the logical-line splitter produces zero logical
lines for it. -/
theorem empty_input_identity (sql : PyStr) (h : pyStrip sql = []) :
    format_sql sql = sql ∧ split_into_logical_lines sql = [] := by
  constructor
  · simp [format_sql, h]
  · simp [split_into_logical_lines, h]

/-- Witness for C5 at the whitespace input `"  \n "`. -/
theorem empty_input_identity_witness :
    pyStrip (toPy "  \n ") = [] ∧
      (format_sql (toPy "  \n ") = toPy "  \n " ∧
       split_into_logical_lines (toPy "  \n ") = []) :=
  ⟨by decide, empty_input_identity (toPy "  \n ") (by decide)⟩

/-! ### C10: the splitter never emits an empty logical line -/

/-- A line that starts with a non-whitespace character (hence is
non-empty and contains at least one token). -/
def headOk (l : PyStr) : Prop :=
  l ≠ [] ∧ pyIsSpace (l.headD ' ') = false

theorem headOk_append_left {x y : PyStr} (h : headOk x) : headOk (x ++ y) := by
  obtain ⟨hne, hh⟩ := h
  cases x with
  | nil => exact absurd rfl hne
  | cons c t => exact ⟨by simp, hh⟩

theorem dropWhile_head_not {p : Char → Bool} {s : PyStr} {c : Char}
    {rest : PyStr} (h : s.dropWhile p = c :: rest) : p c = false := by
  induction s with
  | nil => simp at h
  | cons a t ih =>
    rw [List.dropWhile_cons] at h
    by_cases hp : p a
    · exact ih (by simpa [hp] using h)
    · rw [if_neg (by simpa using hp)] at h
      cases h
      simpa using hp

theorem pyJoin_headOk {cur : List PyStr} (hne : cur ≠ [])
    (h : ∀ tk ∈ cur, headOk tk) : headOk (pyJoin [' '] cur) := by
  match cur with
  | [x] => exact h x (by simp)
  | x :: y :: t =>
    rw [pyJoin]
    exact headOk_append_left (headOk_append_left (h x (by simp)))

theorem closeCur_headOk {cur : List PyStr} (h : ∀ tk ∈ cur, headOk tk) :
    ∀ l ∈ closeCur cur, headOk l := by
  intro l hl
  unfold closeCur at hl
  by_cases hc : cur.isEmpty
  · simp [hc] at hl
  · rw [if_neg hc] at hl
    rw [List.mem_singleton] at hl
    subst hl
    exact pyJoin_headOk (by simpa using hc) h

theorem headOk_lit {c : Char} {t : PyStr} (h : pyIsSpace c = false) :
    headOk (c :: t) := ⟨by simp, by simpa using h⟩

theorem fuseCompound_headOk {token rest : PyStr} (h : headOk token) :
    headOk (fuseCompound token rest).1 := by
  simp only [fuseCompound]
  split_ifs <;> first | exact h | exact headOk_lit (by decide)

theorem readToken_headOk {c : Char} {rest : PyStr}
    (hc : pyIsSpace c = false) : headOk (readToken c rest).1 := by
  unfold readToken
  by_cases hcs : c = ',' ∨ c = ';'
  · rw [if_pos hcs]
    rcases hcs with hcs | hcs <;> subst hcs <;> exact headOk_lit (by decide)
  · rw [if_neg hcs]
    push_neg at hcs
    have hpc : (!pyIsSpace c && c ≠ ',' && c ≠ ';') = true := by
      simp [hc, hcs.1, hcs.2]
    simp only [List.takeWhile_cons, hpc, if_true]
    exact ⟨by simp, by simpa using hc⟩

theorem splitGoF_headOk (fuel : Nat) :
    ∀ (s : PyStr) (cur acc : List PyStr),
      (∀ tk ∈ cur, headOk tk) → (∀ l ∈ acc, headOk l) →
      ∀ l ∈ splitGoF fuel s cur acc, headOk l := by
  induction fuel with
  | zero =>
    intro s cur acc hcur hacc l hl
    rw [splitGoF] at hl
    rcases List.mem_append.mp hl with hl | hl
    · exact hacc l hl
    · exact closeCur_headOk hcur l hl
  | succ fuel ih =>
    intro s cur acc hcur hacc l hl
    rw [splitGoF] at hl
    split at hl
    · rcases List.mem_append.mp hl with hl | hl
      · exact hacc l hl
      · exact closeCur_headOk hcur l hl
    · rename_i c rest hd
      have hcns : pyIsSpace c = false := dropWhile_head_not hd
      have htokOk : headOk (readToken c rest).1 := readToken_headOk hcns
      split at hl
      · -- comma branch
        rename_i hcond
        refine ih _ _ _ ?_ ?_ l hl
        · intro t ht
          rw [List.mem_singleton] at ht
          subst ht
          exact ⟨by simp, by decide⟩
        · intro x hx
          rcases List.mem_append.mp hx with hx | hx
          · exact hacc x hx
          · rw [List.mem_singleton] at hx
            subst hx
            exact pyJoin_headOk (by simpa using hcond.2) hcur
      · split at hl
        · -- semicolon branch
          refine ih _ _ _ (by simp) ?_ l hl
          intro x hx
          rcases List.mem_append.mp hx with hx | hx
          · rcases List.mem_append.mp hx with hx | hx
            · exact hacc x hx
            · exact closeCur_headOk hcur x hx
          · rw [List.mem_singleton] at hx
            subst hx
            exact ⟨by simp, by decide⟩
        · split at hl
          · -- clause keyword / comment token branch
            refine ih _ _ _ ?_ ?_ l hl
            · intro t ht
              rw [List.mem_singleton] at ht
              subst ht
              exact fuseCompound_headOk htokOk
            · intro x hx
              rcases List.mem_append.mp hx with hx | hx
              · exact hacc x hx
              · exact closeCur_headOk hcur x hx
          · -- plain content token branch
            refine ih _ _ _ ?_ hacc l hl
            intro t ht
            rcases List.mem_append.mp ht with ht | ht
            · exact hcur t ht
            · rw [List.mem_singleton] at ht
              subst ht
              exact htokOk

/-- C10: every logical line produced by `_split_into_logical_lines` is
a non-empty string containing at least one token (its first character
is not whitespace). -/
theorem splitter_no_empty_lines (sql : PyStr) (l : PyStr)
    (h : l ∈ split_into_logical_lines sql) :
    l ≠ [] ∧ ∃ c rest, l = c :: rest ∧ pyIsSpace c = false := by
  have hok : headOk l := by
    unfold split_into_logical_lines at h
    by_cases he : (pyStrip sql).isEmpty
    · simp [he] at h
    · rw [if_neg he] at h
      exact splitGoF_headOk _ _ _ _ (by simp [headOk]) (by simp) l h
  obtain ⟨hne, hh⟩ := hok
  cases l with
  | nil => exact absurd rfl hne
  | cons c rest => exact ⟨hne, c, rest, rfl, hh⟩

/-! ### C3: comma-continuation layout -/

/-- C3: every comma-continuation line rendered by the line renderer
(a logical line whose stripped form starts with `,`) has its comma at
column `primary − 1`, exactly one space after the comma, and its
content starting at exactly column `primary + 1`. -/
theorem comma_continuation_layout (st : FmtState) (line cs : PyStr)
    (hc : pyStrip line = ',' :: cs) (hp : 1 ≤ st.primary_river_pos) :
    format_line_preserving_tokens st line false =
      mkSpaces (st.primary_river_pos - 1) ++ [','] ++ [' '] ++ pyStrip cs ∧
    (format_line_preserving_tokens st line false)[(st.primary_river_pos - 1).toNat]?
      = some ',' ∧
    (format_line_preserving_tokens st line false)[st.primary_river_pos.toNat]?
      = some ' ' ∧
    (format_line_preserving_tokens st line false).drop
      (st.primary_river_pos + 1).toNat = pyStrip cs ∧
    ∀ c ∈ (format_line_preserving_tokens st line false).take
      (st.primary_river_pos - 1).toNat, c = ' ' := by
  have hne : ¬line.isEmpty = true := by
    intro h
    rw [List.isEmpty_iff] at h
    subst h
    simp [pyStrip, pyLStrip, pyRStrip] at hc
  have hg1 : pyStartsWith (pyUpper (',' :: cs)) (toPy "SELECT ") = false := by
    rw [pyUpper_cons]
    exact pyStartsWith_cons_ne (by decide)
  have hg2 : pyStartsWith (',' :: cs) (toPy ",") = true := by
    show List.isPrefixOf [','] (',' :: cs) = true
    simp [List.isPrefixOf_cons₂]
  have hone : st.primary_river_pos + 1 - (st.primary_river_pos - 1) - 1 = 1 := by
    ring
  have hmain : format_line_preserving_tokens st line false =
      mkSpaces (st.primary_river_pos - 1) ++ [','] ++ [' '] ++ pyStrip cs := by
    unfold format_line_preserving_tokens
    rw [format_lineF]
    rw [if_neg hne, hc]
    rw [if_neg (by simp [hg1]), if_pos hg2]
    show mkSpaces (st.primary_river_pos - 1) ++ [','] ++
        mkSpaces (st.primary_river_pos + 1 - (st.primary_river_pos - 1) - 1) ++
        pyStrip ((',' :: cs).drop 1) = _
    rw [hone]
    simp [mkSpaces]
  refine ⟨hmain, ?_, ?_, ?_, ?_⟩
  · rw [hmain]
    rw [show mkSpaces (st.primary_river_pos - 1) ++ [','] ++ [' '] ++ pyStrip cs
        = mkSpaces (st.primary_river_pos - 1) ++ ([','] ++ [' '] ++ pyStrip cs)
        from by simp]
    rw [List.getElem?_append_right (by rw [mkSpaces_length])]
    simp [mkSpaces_length]
  · rw [hmain]
    rw [show mkSpaces (st.primary_river_pos - 1) ++ [','] ++ [' '] ++ pyStrip cs
        = mkSpaces (st.primary_river_pos - 1) ++ ([','] ++ [' '] ++ pyStrip cs)
        from by simp]
    rw [List.getElem?_append_right
      (by rw [mkSpaces_length]; omega)]
    rw [mkSpaces_length]
    rw [show st.primary_river_pos.toNat - (st.primary_river_pos - 1).toNat = 1
        from by omega]
    simp
  · rw [hmain]
    rw [show mkSpaces (st.primary_river_pos - 1) ++ [','] ++ [' '] ++ pyStrip cs
        = (mkSpaces (st.primary_river_pos - 1) ++ [','] ++ [' ']) ++ pyStrip cs
        from by simp]
    refine List.drop_left' ?_
    simp only [List.length_append, mkSpaces_length, List.length_cons,
      List.length_nil]
    omega
  · intro c hmem
    rw [hmain] at hmem
    rw [show mkSpaces (st.primary_river_pos - 1) ++ [','] ++ [' '] ++ pyStrip cs
        = mkSpaces (st.primary_river_pos - 1) ++ ([','] ++ [' '] ++ pyStrip cs)
        from by simp] at hmem
    rw [List.take_left' (mkSpaces_length _)] at hmem
    exact mem_mkSpaces hmem

/-- Witness for C3 with the state computed from the document
`"SELECT a, b FROM t WHERE x = 1"` (primary river 13) and the logical
line `", b"`. -/
theorem comma_continuation_layout_witness :
    pyStrip (toPy ", b") = ',' :: toPy " b" ∧
    (1 : Int) ≤ (mkState (toPy "SELECT a, b FROM t WHERE x = 1")).primary_river_pos ∧
    format_line_preserving_tokens
        (mkState (toPy "SELECT a, b FROM t WHERE x = 1")) (toPy ", b") false =
      mkSpaces 12 ++ [','] ++ [' '] ++ pyStrip (toPy " b") :=
  ⟨by decide, by decide,
   by
    have h := (comma_continuation_layout
      (mkState (toPy "SELECT a, b FROM t WHERE x = 1")) (toPy ", b")
      (toPy " b") (by decide) (by decide)).1
    rw [h]
    rw [show (mkState (toPy "SELECT a, b FROM t WHERE x = 1")).primary_river_pos
        = 13 from by decide]
    norm_num⟩

/-! ### C7: the renderer is total and falls through to the default rule -/

/-- C7: the line renderer is a total function (witnessed by its very
definition as a total Lean function over all line/state inputs — no
branch of the source can raise), and every non-empty logical line that
matches none of the SELECT, comma, comment, CASE, subquery, clause
pattern, AND/OR, or semicolon rules is rendered with its content
starting at column `primary + 1`. -/
theorem unmatched_line_default (st : FmtState) (line : PyStr)
    (in_subquery : Bool) (hne : line ≠ [])
    (h1 : pyStartsWith (pyUpper (pyStrip line)) (toPy "SELECT ") = false)
    (h2 : pyStartsWith (pyStrip line) (toPy ",") = false)
    (h3 : pyStartsWith (pyStrip line) (toPy "--") = false)
    (h4 : is_case_clause (pyStrip line) = false)
    (h5 : subqSearchGo (pyStrip line) 0 = none)
    (h6 : matchLeftAt0Go left_clause_patterns (pyStrip line) = none)
    (h7 : pyStartsWith (pyUpper (pyStrip line)) (toPy "AND ") = false)
    (h8 : pyStartsWith (pyUpper (pyStrip line)) (toPy "OR ") = false)
    (h9 : pyStrip line ≠ [';']) :
    format_line_preserving_tokens st line in_subquery =
      mkSpaces (st.primary_river_pos + 1) ++ pyStrip line := by
  unfold format_line_preserving_tokens
  rw [format_lineF]
  simp [hne, h1, h2, h3, h4, h5, h6, h7, h8, h9]

/-- Witness for C7: the unmatched line `"foo bar"` with the state of
the document `"SELECT a, b FROM t WHERE x = 1"`. -/
theorem unmatched_line_default_witness :
    format_line_preserving_tokens
        (mkState (toPy "SELECT a, b FROM t WHERE x = 1")) (toPy "foo bar")
        false =
      mkSpaces ((mkState (toPy "SELECT a, b FROM t WHERE x = 1")).primary_river_pos
        + 1) ++ pyStrip (toPy "foo bar") :=
  unmatched_line_default _ _ _ (by decide) (by decide) (by decide) (by decide)
    (by decide) (by decide) (by decide) (by decide) (by decide) (by decide)

/-! ### C4: the secondary river formula -/

theorem mem_dedupAppend {a x : PyStr} {acc : List PyStr} (h : a ∈ acc) :
    a ∈ dedupAppend acc x := by
  unfold dedupAppend
  split
  · exact h
  · exact List.mem_append_left _ h

theorem self_mem_dedupAppend (x : PyStr) (acc : List PyStr) :
    x ∈ dedupAppend acc x := by
  unfold dedupAppend
  split
  · assumption
  · simp

theorem mem_dedupAppend_inv {a x : PyStr} {acc : List PyStr}
    (h : a ∈ dedupAppend acc x) : a ∈ acc ∨ a = x := by
  unfold dedupAppend at h
  split at h
  · exact Or.inl h
  · rcases List.mem_append.mp h with h | h
    · exact Or.inl h
    · exact Or.inr (List.mem_singleton.mp h)

theorem mem_foldl_preserve {β : Type} {f : List PyStr → β → List PyStr}
    (hf : ∀ acc y a, a ∈ acc → a ∈ f acc y) (l : List β) :
    ∀ (acc : List PyStr) (a : PyStr), a ∈ acc → a ∈ l.foldl f acc := by
  induction l with
  | nil => intro acc a h; exact h
  | cons y t ih =>
    intro acc a h
    exact ih (f acc y) a (hf acc y a h)

theorem foldl_mem_of_step {β : Type} (K : PyStr → Prop)
    {f : List PyStr → β → List PyStr}
    (hf : ∀ acc y x, x ∈ f acc y → x ∈ acc ∨ K x) (l : List β) :
    ∀ (acc : List PyStr) (x : PyStr), x ∈ l.foldl f acc → x ∈ acc ∨ K x := by
  induction l with
  | nil => intro acc x h; exact Or.inl h
  | cons y t ih =>
    intro acc x h
    rcases ih (f acc y) x h with h2 | h2
    · exact hf acc y x h2
    · exact Or.inr h2

theorem matchKw_upper {kw s t : PyStr} (h : matchKw kw s = some t) :
    pyUpper t = kw := by
  simp only [matchKw] at h
  split at h
  · cases h
    rename_i hcond
    exact beq_iff_eq.mp (Bool.and_eq_true _ _ |>.mp hcond).2
  · cases h

theorem matchKwSeq_single_upper {kw s t : PyStr}
    (h : matchKwSeq [kw] s = some t) : pyUpper t = kw := by
  unfold matchKwSeq at h
  cases hm : matchKw kw s with
  | none => simp only [hm] at h; cases h
  | some t0 =>
    simp only [hm] at h
    by_cases hb : endBoundary (s.drop t0.length) = true
    · rw [if_pos hb] at h
      cases h
      exact matchKw_upper hm
    · rw [if_neg hb] at h
      cases h

theorem matchAlts_single_kws {k1 k2 k3 s t : PyStr}
    (h : matchAlts [[k1], [k2], [k3]] s = some t) :
    pyUpper t = k1 ∨ pyUpper t = k2 ∨ pyUpper t = k3 := by
  unfold matchAlts at h
  cases h1 : matchKwSeq [k1] s with
  | some t1 =>
    simp only [h1] at h
    cases h
    exact Or.inl (matchKwSeq_single_upper h1)
  | none =>
    simp only [h1] at h
    unfold matchAlts at h
    cases h2 : matchKwSeq [k2] s with
    | some t2 =>
      simp only [h2] at h
      cases h
      exact Or.inr (Or.inl (matchKwSeq_single_upper h2))
    | none =>
      simp only [h2] at h
      unfold matchAlts at h
      cases h3 : matchKwSeq [k3] s with
      | some t3 =>
        simp only [h3] at h
        cases h
        exact Or.inr (Or.inr (matchKwSeq_single_upper h3))
      | none =>
        simp only [h3] at h
        unfold matchAlts at h
        cases h

theorem searchAlts_single_kws {k1 k2 k3 s t : PyStr} {prev : Bool}
    (h : searchAlts [[k1], [k2], [k3]] s prev = some t) :
    pyUpper t = k1 ∨ pyUpper t = k2 ∨ pyUpper t = k3 := by
  induction s generalizing prev with
  | nil => rw [searchAlts] at h; cases h
  | cons c rest ih =>
    rw [searchAlts] at h
    by_cases hp : prev
    · rw [if_pos hp] at h
      exact ih h
    · rw [if_neg hp] at h
      cases hm : matchAlts [[k1], [k2], [k3]] (c :: rest) with
      | some t0 =>
        simp only [hm] at h
        cases h
        exact matchAlts_single_kws hm
      | none =>
        simp only [hm] at h
        exact ih h

theorem subqueryFold_mem {sql : PyStr} {acc : List PyStr} {x : PyStr}
    (h : x ∈ subqueryFold sql acc) :
    x ∈ acc ∨ x = toPy "SELECT" ∨ x = toPy "FROM" ∨ x = toPy "WHERE" := by
  refine foldl_mem_of_step
    (fun z => z = toPy "SELECT" ∨ z = toPy "FROM" ∨ z = toPy "WHERE")
    ?_ _ acc x h
  intro acc1 kw x1 h1
  refine foldl_mem_of_step
    (fun z => z = toPy "SELECT" ∨ z = toPy "FROM" ∨ z = toPy "WHERE")
    ?_ _ acc1 x1 h1
  intro acc2 m x2 h2
  cases hs : searchAlts [[toPy "SELECT"], [toPy "FROM"], [toPy "WHERE"]] m false with
  | some t =>
    simp only [hs] at h2
    rcases mem_dedupAppend_inv h2 with h3 | h3
    · exact Or.inl h3
    · subst h3
      exact Or.inr (searchAlts_single_kws hs)
  | none =>
    simp only [hs] at h2
    exact Or.inl h2

theorem caseFamilyFold_id (sql : PyStr) (acc : List PyStr)
    (h : ∀ kw ∈ secondary_clause_patterns, finditerKwSeq [kw] sql = []) :
    caseFamilyFold sql acc = acc := by
  have h1 := h (toPy "CASE") (by simp [secondary_clause_patterns])
  have h2 := h (toPy "WHEN") (by simp [secondary_clause_patterns])
  have h3 := h (toPy "THEN") (by simp [secondary_clause_patterns])
  have h4 := h (toPy "ELSE") (by simp [secondary_clause_patterns])
  have h5 := h (toPy "END") (by simp [secondary_clause_patterns])
  simp [caseFamilyFold, secondary_clause_patterns, h1, h2, h3, h4, h5]

theorem subqueryFold_id (sql : PyStr) (acc : List PyStr)
    (h : ∀ kw ∈ [toPy "SELECT", toPy "FROM", toPy "WHERE"],
      finditerGo (fun s _ => matchParenKw kw s) sql false = []) :
    subqueryFold sql acc = acc := by
  have h1 := h (toPy "SELECT") (by simp)
  have h2 := h (toPy "FROM") (by simp)
  have h3 := h (toPy "WHERE") (by simp)
  simp [subqueryFold, h1, h2, h3]

theorem caseWhen_mem_of_matches {sql : PyStr} (h : case_when_matches sql ≠ []) :
    (toPy "CASE WHEN") ∈ caseWhenFold sql := by
  unfold caseWhenFold
  cases hm : case_when_matches sql with
  | nil => exact absurd hm h
  | cons m ms =>
    rw [List.foldl_cons]
    refine mem_foldl_preserve (fun acc y a ha => mem_dedupAppend ha) ms _ _ ?_
    exact self_mem_dedupAppend _ _

/-- C4: the secondary river position equals `primary + 10` whenever a
compound `CASE WHEN` fragment occurs anywhere in the document
(overriding any computed maximum); otherwise, when only subquery
fragments (a clause keyword following an open parenthesis) are present,
it equals `primary + max(length of the subquery clause texts) + 4`; and
`primary + 10` when neither family is present. -/
theorem secondary_river_formula (sql : PyStr) (p : Int) :
    (case_when_matches sql ≠ [] →
      calculate_secondary_river p (extract_secondary_clauses sql) = p + 10) ∧
    (case_when_matches sql = [] →
      (∀ kw ∈ secondary_clause_patterns, finditerKwSeq [kw] sql = []) →
      subquery_clause_texts sql ≠ [] →
      calculate_secondary_river p (extract_secondary_clauses sql) =
        p + (maxLen (subquery_clause_texts sql) : Int) + 4) ∧
    (case_when_matches sql = [] →
      (∀ kw ∈ secondary_clause_patterns, finditerKwSeq [kw] sql = []) →
      (∀ kw ∈ [toPy "SELECT", toPy "FROM", toPy "WHERE"],
        finditerGo (fun s _ => matchParenKw kw s) sql false = []) →
      calculate_secondary_river p (extract_secondary_clauses sql) = p + 10) := by
  refine ⟨?_, ?_, ?_⟩
  · intro hcw
    have hmem1 : (toPy "CASE WHEN") ∈ subqueryFold sql (caseWhenFold sql) := by
      unfold subqueryFold
      refine mem_foldl_preserve ?_ _ _ _ (caseWhen_mem_of_matches hcw)
      intro acc y a ha
      refine mem_foldl_preserve ?_ _ _ _ ha
      intro acc2 m a2 ha2
      cases hs : searchAlts [[toPy "SELECT"], [toPy "FROM"], [toPy "WHERE"]]
          m false with
      | some t => simp only [hs]; exact mem_dedupAppend ha2
      | none => simp only [hs]; exact ha2
    have hmem : (toPy "CASE WHEN") ∈ extract_secondary_clauses sql := by
      unfold extract_secondary_clauses caseFamilyFold
      refine mem_foldl_preserve ?_ _ _ _ hmem1
      intro acc y a ha
      exact mem_foldl_preserve
        (fun acc2 m a2 ha2 => mem_dedupAppend ha2) _ _ _ ha
    unfold calculate_secondary_river
    rw [if_neg (by simp [List.isEmpty_iff]; exact List.ne_nil_of_mem hmem)]
    rw [if_pos hmem]
  · intro hcw hfam hsub
    have hex : extract_secondary_clauses sql = subquery_clause_texts sql := by
      unfold extract_secondary_clauses subquery_clause_texts
      rw [show caseWhenFold sql = [] by unfold caseWhenFold; rw [hcw]; rfl]
      exact caseFamilyFold_id sql _ hfam
    rw [hex]
    have hnc : (toPy "CASE WHEN") ∉ subquery_clause_texts sql := by
      intro hmem
      rcases subqueryFold_mem hmem with h | h | h | h
      · cases h
      · exact absurd h (by decide)
      · exact absurd h (by decide)
      · exact absurd h (by decide)
    unfold calculate_secondary_river
    rw [if_neg (by simpa [List.isEmpty_iff] using hsub)]
    rw [if_neg hnc]
  · intro hcw hfam hsub
    have hex : extract_secondary_clauses sql = [] := by
      unfold extract_secondary_clauses
      rw [show caseWhenFold sql = [] by unfold caseWhenFold; rw [hcw]; rfl]
      rw [subqueryFold_id sql _ hsub]
      exact caseFamilyFold_id sql _ hfam
    rw [hex]
    rfl

/-- Witness for C4 at three concrete documents, one per family case:
`"CASE WHEN x THEN 1"` (compound present), `"( SELECT a"` (only a
subquery fragment, with clause text `SELECT` of length 6), and
`"abc def"` (neither family). -/
theorem secondary_river_formula_witness :
    calculate_secondary_river 13 (extract_secondary_clauses
      (toPy "CASE WHEN x THEN 1")) = 23 ∧
    calculate_secondary_river 13 (extract_secondary_clauses
      (toPy "( SELECT a")) = 23 ∧
    calculate_secondary_river 13 (extract_secondary_clauses
      (toPy "abc def")) = 23 := by
  refine ⟨?_, ?_, ?_⟩
  · rw [(secondary_river_formula (toPy "CASE WHEN x THEN 1") 13).1 (by decide)]
    norm_num
  · rw [(secondary_river_formula (toPy "( SELECT a") 13).2.1 (by decide)
      (by decide) (by decide)]
    decide
  · rw [(secondary_river_formula (toPy "abc def") 13).2.2 (by decide)
      (by decide) (by decide)]
    norm_num

/-! ### C8: the verifier -/

/-- Counterexample to C8 as stated: the single rendered line
`"aaaaaaaaaaaaaaEND"` is longer than the primary river position 13,
has a non-space character at index 13 and contains the CASE-family
keyword `END` — so under the claim's exemption the verifier should
accept — yet `verify_river_lines` returns `False`, because the source
only exempts a keyword followed by a space (`'END '`), which a
line-final `END` is not. -/
theorem verify_exemption_cx :
    ¬ (verify_river_lines 13 (toPy "aaaaaaaaaaaaaaEND") = false ↔
        ∃ line ∈ pySplitOn '\n' (toPy "aaaaaaaaaaaaaaEND"),
          (line.length : Int) > 13 ∧ line.getD (13 : Int).toNat ' ' ≠ ' ' ∧
          ¬ (pyContains (pyUpper line) (toPy "WHEN") = true ∨
             pyContains (pyUpper line) (toPy "THEN") = true ∨
             pyContains (pyUpper line) (toPy "ELSE") = true ∨
             pyContains (pyUpper line) (toPy "END") = true)) := by
  decide

theorem verifyGo_false_iff (p : Int) (lines : List PyStr) :
    verifyGo p lines = false ↔
      ∃ line ∈ lines, (line.length : Int) > p ∧
        line.getD p.toNat ' ' ≠ ' ' ∧ is_case_context line = false := by
  induction lines with
  | nil => simp [verifyGo]
  | cons l rest ih =>
    rw [verifyGo]
    by_cases h1 : (l.length : Int) > p
    · rw [if_pos h1]
      by_cases h2 : l.getD p.toNat ' ' ≠ ' ' ∧ !is_case_context l
      · rw [if_pos h2]
        simp only [true_iff]
        exact ⟨l, List.mem_cons_self _ _, h1, h2.1, by simpa using h2.2⟩
      · rw [if_neg h2]
        rw [ih]
        constructor
        · rintro ⟨line, hmem, hl⟩
          exact ⟨line, List.mem_cons_of_mem _ hmem, hl⟩
        · rintro ⟨line, hmem, hl⟩
          rcases List.mem_cons.mp hmem with rfl | hmem
          · exact absurd ⟨hl.2.1, by simp [hl.2.2]⟩ h2
          · exact ⟨line, hmem, hl⟩
    · rw [if_neg h1]
      rw [ih]
      constructor
      · rintro ⟨line, hmem, hl⟩
        exact ⟨line, List.mem_cons_of_mem _ hmem, hl⟩
      · rintro ⟨line, hmem, hl⟩
        rcases List.mem_cons.mp hmem with rfl | hmem
        · exact absurd hl.1 h1
        · exact ⟨line, hmem, hl⟩

/-- C8 (amended): `verify_river_lines` — a pure Boolean predicate that
never modifies the rendered text — returns `False` exactly when some
rendered line longer than the primary river position has a non-space
character at index `primary` and does not contain any of the substrings
`WHEN `/`THEN `/`ELSE `/`END ` (CASE-family keyword followed by a
space) in its uppercased form; every line not longer than the primary
river position is accepted. -/
theorem verify_river_lines_characterization (p : Int) (txt : PyStr) :
    verify_river_lines p txt = false ↔
      ∃ line ∈ pySplitOn '\n' txt, (line.length : Int) > p ∧
        line.getD p.toNat ' ' ≠ ' ' ∧ is_case_context line = false := by
  unfold verify_river_lines
  exact verifyGo_false_iff p (pySplitOn '\n' txt)

/-! ### C9: closing parentheses and the parenthesis-semicolon merge -/

/-- Counterexample to C9 as stated: with the state of the document
`"FROM t"` (primary river 11), the logical line `"x AS ( y )"` ends in
a closing parenthesis with preceding content, yet it is NOT split into
a content line followed by a closing-parenthesis line at
`primary + 1`: the `AS (` rule of `_process_cte_brackets` fires first
and keeps the trailing `)` on the second content line. -/
theorem closing_paren_cx :
    pyEndsWith (pyStrip (toPy "x AS ( y )")) (toPy ")") = true ∧
    (pyStrip (toPy "x AS ( y )")).length > 1 ∧
    process_cte_brackets (mkState (toPy "FROM t")) (toPy "x AS ( y )") ≠
      some (format_line_preserving_tokens (mkState (toPy "FROM t"))
          (pyStrip ((pyStrip (toPy "x AS ( y )")).dropLast)) ++ ['\n'] ++
        mkSpaces ((mkState (toPy "FROM t")).primary_river_pos + 1) ++ toPy ")") ∧
    process_cte_brackets (mkState (toPy "FROM t")) (toPy "x AS ( y )") =
      some (toPy "            x AS (\n            y )") := by
  decide

/-- C9 (amended): a logical line that is exactly a closing parenthesis
is rendered by the bracket processor alone at `primary + 1`; a line
ending in a closing parenthesis with preceding content — provided it
does not contain a word-bounded `AS` followed by `(`, which the `AS (`
rule intercepts first, keeping the trailing parenthesis on the content
line — is split into a content line followed by a closing-parenthesis
line at `primary + 1`; and in the rendering loop a closing-parenthesis
line immediately followed by a standalone semicolon line is coalesced
into the single rendered line `");"` at `primary + 1`. -/
theorem closing_paren_rules (st : FmtState) (line : PyStr)
    (rest2 : List PyStr) (pd : Int) (isq : Bool) :
    (process_cte_brackets st (toPy ")") =
      some (mkSpaces (st.primary_river_pos + 1) ++ toPy ")")) ∧
    (searchAsParenGo [] line false = none →
      pyStrip line ≠ toPy ")" →
      pyEndsWith (pyStrip line) (toPy ")") = true →
      (pyStrip line).length > 1 →
      pyStrip ((pyStrip line).dropLast) ≠ [] →
      process_cte_brackets st line =
        some (format_line_preserving_tokens st
            (pyStrip ((pyStrip line).dropLast)) ++ ['\n'] ++
          mkSpaces (st.primary_river_pos + 1) ++ toPy ")")) ∧
    (renderLoop st (toPy ")" :: toPy ";" :: rest2) pd isq =
      (mkSpaces (st.primary_river_pos + 1) ++ toPy ");") ::
        renderLoop st rest2 (parenUpdate (toPy ")") pd isq).1
          (parenUpdate (toPy ")") pd isq).2) := by
  refine ⟨rfl, ?_, ?_⟩
  · intro hAs hne hend hlen hcontent
    unfold process_cte_brackets
    simp only [hAs]
    rw [if_neg hne, if_pos ⟨hend, hlen⟩]
    rw [if_neg (by simpa [List.isEmpty_iff] using hcontent)]
  · rw [renderLoop]
    rw [if_neg (by decide)]
    rw [if_neg (by decide), if_neg (by decide), if_neg (by decide),
      if_neg (by decide)]
    rw [if_pos (by decide)]
    rfl

/-- Witness for C9 (part 2 has hypotheses): the line `"FROM t)"` with
the state of the document `"FROM t"` (primary river 11), plus the
coalescing case at a concrete list tail. -/
theorem closing_paren_rules_witness :
    process_cte_brackets (mkState (toPy "FROM t")) (toPy "FROM t)") =
      some (format_line_preserving_tokens (mkState (toPy "FROM t"))
          (pyStrip ((pyStrip (toPy "FROM t)")).dropLast)) ++ ['\n'] ++
        mkSpaces ((mkState (toPy "FROM t")).primary_river_pos + 1) ++
        toPy ")") ∧
    renderLoop (mkState (toPy "FROM t")) (toPy ")" :: toPy ";" :: []) 1 true =
      (mkSpaces ((mkState (toPy "FROM t")).primary_river_pos + 1) ++
        toPy ");") ::
        renderLoop (mkState (toPy "FROM t")) []
          (parenUpdate (toPy ")") 1 true).1
          (parenUpdate (toPy ")") 1 true).2 :=
  ⟨(closing_paren_rules (mkState (toPy "FROM t")) (toPy "FROM t)") [] 0
      false).2.1 (by decide) (by decide) (by decide) (by decide) (by decide),
   (closing_paren_rules (mkState (toPy "FROM t")) (toPy "FROM t)") [] 1
      true).2.2⟩

/-! ### C2: SELECT truncation and placement -/

/-- Counterexample to C2 as stated: with the state computed from
`"(SELECT a FROM t) CASE WHEN b THEN 1"` (primary river 13, secondary
river 23, secondary inventory containing both `SELECT` and
`CASE WHEN`), the SELECT line `"SELECT b, c"` rendered in subquery
context keeps only the first projected item but is placed so that
`SELECT` ends at the secondary river column 23, not at the primary
river column 13 as the claim requires (13 − 6 = 7 leading spaces). -/
theorem select_truncation_cx :
    (mkState (toPy "(SELECT a FROM t) CASE WHEN b THEN 1")).primary_river_pos
      = 13 ∧
    (mkState (toPy "(SELECT a FROM t) CASE WHEN b THEN 1")).secondary_river_pos
      = 23 ∧
    format_line_preserving_tokens
        (mkState (toPy "(SELECT a FROM t) CASE WHEN b THEN 1"))
        (toPy "SELECT b, c") true =
      mkSpaces 17 ++ toPy "SELECT b" ∧
    format_line_preserving_tokens
        (mkState (toPy "(SELECT a FROM t) CASE WHEN b THEN 1"))
        (toPy "SELECT b, c") true ≠
      mkSpaces 7 ++ toPy "SELECT b" := by
  decide

/-- C2 (amended): for every logical line whose clause is SELECT and
whose remaining content contains a comma, rendering keeps only the text
before the first comma, dropping all subsequent projected items, and
the kept fragment is placed so that `SELECT` ends at the primary river
column — except when the line is rendered in subquery context while the
secondary inventory contains both `SELECT` and `CASE WHEN`, in which
case `SELECT` ends at the secondary river column instead. -/
theorem select_truncation_amended (st : FmtState) (line : PyStr)
    (insub : Bool)
    (hsel : pyStartsWith (pyUpper (pyStrip line)) (toPy "SELECT ") = true)
    (hcomma : ',' ∈ (pyStrip line).drop 7) :
    format_line_preserving_tokens st line insub =
      mkSpaces (max 0
        ((if insub = true ∧ st.secondary_river_pos ≠ 0 ∧
            (toPy "SELECT") ∈ st.secondary_clauses ∧
            (toPy "CASE WHEN") ∈ st.secondary_clauses then
            st.secondary_river_pos
          else st.primary_river_pos) - 6)) ++
      toPy "SELECT " ++
      pyStrip (((pyStrip line).drop 7).takeWhile (fun c => c ≠ ',')) := by
  have hne : ¬line.isEmpty = true := by
    intro h
    rw [List.isEmpty_iff] at h
    subst h
    rw [show pyStartsWith (pyUpper (pyStrip ([] : PyStr))) (toPy "SELECT ")
        = false from by decide] at hsel
    cases hsel
  unfold format_line_preserving_tokens
  rw [format_lineF]
  rw [if_neg hne, if_pos hsel, if_pos hcomma]

/-- Witness for C2 (amended): `"SELECT a, b"` in main-query context of
the document `"SELECT a, b FROM t WHERE x = 1"`. -/
theorem select_truncation_amended_witness :
    format_line_preserving_tokens
        (mkState (toPy "SELECT a, b FROM t WHERE x = 1")) (toPy "SELECT a, b")
        false =
      mkSpaces (max 0
        ((if false = true ∧
            (mkState (toPy "SELECT a, b FROM t WHERE x = 1")).secondary_river_pos
              ≠ 0 ∧
            (toPy "SELECT") ∈
              (mkState (toPy "SELECT a, b FROM t WHERE x = 1")).secondary_clauses ∧
            (toPy "CASE WHEN") ∈
              (mkState (toPy "SELECT a, b FROM t WHERE x = 1")).secondary_clauses
          then (mkState (toPy "SELECT a, b FROM t WHERE x = 1")).secondary_river_pos
          else (mkState (toPy "SELECT a, b FROM t WHERE x = 1")).primary_river_pos)
          - 6)) ++
      toPy "SELECT " ++
      pyStrip (((pyStrip (toPy "SELECT a, b")).drop 7).takeWhile
        (fun c => c ≠ ',')) :=
  select_truncation_amended _ _ _ (by decide) (by decide)

/-! ### C6: the compound-keyword look-ahead -/

/-- Counterexample to C6 as stated: in `"GROUP BYTES"` the
whitespace-separated token following `GROUP` is `BYTES`, which does not
match `BY`, yet the splitter fuses a `GROUP BY` token, consuming only
the two characters `BY` and leaving `TES` behind (the claim's
"exactly when the following token matches BY, consuming both source
words" would leave the line `"GROUP BYTES"` unsplit). -/
theorem lookahead_fusion_cx :
    (((toPy "GROUP BYTES").dropWhile (fun c => !pyIsSpace c)).dropWhile
        pyIsSpace).takeWhile (fun c => !pyIsSpace c) = toPy "BYTES" ∧
    toPy "BYTES" ≠ toPy "BY" ∧
    split_into_logical_lines (toPy "GROUP BYTES") = [toPy "GROUP BY TES"] ∧
    split_into_logical_lines (toPy "GROUP BYTES") ≠ [toPy "GROUP BYTES"] := by
  decide

/-- C6 (amended): during logical-line splitting, a GROUP, ORDER or
UNION token is fused by look-ahead into `GROUP BY`/`ORDER BY`/`UNION
ALL` exactly when the two (resp. three) characters following the next
whitespace run uppercase to `BY` (resp. `ALL`); only the keyword and
those two (three) characters are consumed, so a following token that
merely begins with `BY`/`ALL` is split apart. -/
theorem lookahead_fusion_amended (token rest : PyStr) :
    (pyUpper token = toPy "GROUP" →
      fuseCompound token rest =
        if pyUpper ((rest.dropWhile pyIsSpace).take 2) = toPy "BY" then
          (toPy "GROUP BY", (rest.dropWhile pyIsSpace).drop 2)
        else (token, rest)) ∧
    (pyUpper token = toPy "ORDER" →
      fuseCompound token rest =
        if pyUpper ((rest.dropWhile pyIsSpace).take 2) = toPy "BY" then
          (toPy "ORDER BY", (rest.dropWhile pyIsSpace).drop 2)
        else (token, rest)) ∧
    (pyUpper token = toPy "UNION" →
      fuseCompound token rest =
        if pyUpper ((rest.dropWhile pyIsSpace).take 3) = toPy "ALL" then
          (toPy "UNION ALL", (rest.dropWhile pyIsSpace).drop 3)
        else (token, rest)) := by
  refine ⟨?_, ?_, ?_⟩ <;>
    (intro h
     cases hr : rest with
     | nil =>
       rw [if_neg (by decide)]
       simp [fuseCompound]
     | cons a r =>
       cases hn : (a :: r).dropWhile pyIsSpace with
       | nil =>
         rw [if_neg (by decide)]
         simp [fuseCompound, h, hn, beq_iff_eq]
       | cons b nr =>
         have dOG : (toPy "ORDER" : PyStr) ≠ toPy "GROUP" := by decide
         have dUG : (toPy "UNION" : PyStr) ≠ toPy "GROUP" := by decide
         have dUO : (toPy "UNION" : PyStr) ≠ toPy "ORDER" := by decide
         split_ifs with hby <;>
           simp [fuseCompound, h, hn, hby, beq_iff_eq, dOG, dUG, dUO] <;>
           simp_all)

/-- Witness for C6 (amended) at fused and unfused concrete inputs. -/
theorem lookahead_fusion_amended_witness :
    fuseCompound (toPy "GROUP") (toPy " by x") = (toPy "GROUP BY", toPy " x") ∧
    fuseCompound (toPy "GROUP") (toPy " BYTES") = (toPy "GROUP BY", toPy "TES") ∧
    fuseCompound (toPy "UNION") (toPy " all y") = (toPy "UNION ALL", toPy " y") ∧
    fuseCompound (toPy "ORDER") (toPy " DESC") = (toPy "ORDER", toPy " DESC") := by
  refine ⟨?_, ?_, ?_, ?_⟩
  · rw [(lookahead_fusion_amended (toPy "GROUP") (toPy " by x")).1 (by decide)]
    decide
  · rw [(lookahead_fusion_amended (toPy "GROUP") (toPy " BYTES")).1 (by decide)]
    decide
  · rw [(lookahead_fusion_amended (toPy "UNION") (toPy " all y")).2.2 (by decide)]
    decide
  · rw [(lookahead_fusion_amended (toPy "ORDER") (toPy " DESC")).2.1 (by decide)]
    decide

/-- Witness for C10 at the input `"SELECT a"`. -/
theorem splitter_no_empty_lines_witness :
    (toPy "SELECT a") ∈ split_into_logical_lines (toPy "SELECT a") ∧
      (toPy "SELECT a") ≠ [] :=
  ⟨by decide,
   (splitter_no_empty_lines (toPy "SELECT a") (toPy "SELECT a")
     (by decide)).1⟩

end SqlRise
